import Mathlib

/-!
Verification development for the yandex-music-downloader repository.

The Python sources under `src/ymd` are embedded shallowly:
* JSON values are modelled by the inductive `JVal`;
* Python exceptions are modelled by `PyExc` and fallible code returns `Except PyExc _`;
* machine integers do not occur (Python ints are unbounded), 32-bit hash
  arithmetic is `Nat` with explicit `% 2^32`;
* external library primitives the source calls (hashlib sha256, hmac, base64,
  pycryptodome AES, UTF-8 encoding, hex decoding) are implemented concretely so
  that every definition is executable.
-/

namespace YMD

/-- A JSON value, as produced by Python's `json` module: the raw inputs of the
`from_json` normalizers in `src/ymd/ym_api/models.py`. Objects are ordered
key/value lists (Python dicts preserve insertion order); the model assumes keys
are not duplicated and lookups take the first match. -/
inductive JVal where
  | null
  | bool (b : Bool)
  | num (n : Int)
  | str (s : String)
  | arr (xs : List JVal)
  | obj (kvs : List (String × JVal))
deriving Repr

/-- Python exceptions that the embedded code can raise.  `unknownCodecError`
does not correspond to any exception class in the source; it is modelled from
the spec's error taxonomy (§7) solely so that statements about it can be
expressed. -/
inductive PyExc where
  | keyError (k : String)
  | typeError
  | attributeError
  | valueError
  | interruptedError
  | osError
  | unknownCodecError (codec : String)
deriving DecidableEq, Repr

/-- First-match association lookup in a JSON object. -/
def lookupKV (kvs : List (String × JVal)) (k : String) : Option JVal :=
  match kvs with
  | [] => none
  | (k', v) :: rest => if k' = k then some v else lookupKV rest k

/-- Python truthiness (`bool(x)`): `None`, `False`, `0`, `""`, `[]`, `{}` are
falsy, everything else truthy. -/
def truthy : JVal → Bool
  | .null => false
  | .bool b => b
  | .num n => n ≠ 0
  | .str s => s ≠ ""
  | .arr xs => ¬ xs.isEmpty
  | .obj kvs => ¬ kvs.isEmpty

/-- Python single-quote character, used by `pyRepr` for string quoting. -/
def pyQuote : String := String.singleton (Char.ofNat 39)

mutual

/-- Python `repr()` on JSON-shaped values (escape sequences inside strings are
not modelled; no claim evaluates `repr` on a string containing quotes). -/
def pyRepr : JVal → String
  | .null => "None"
  | .bool true => "True"
  | .bool false => "False"
  | .num n => toString n
  | .str s => pyQuote ++ s ++ pyQuote
  | .arr xs => "[" ++ pyReprSepList xs ++ "]"
  | .obj kvs => "\x7b" ++ pyReprSepPairs kvs ++ "\x7d"

/-- Comma-separated `repr`s of list elements. -/
def pyReprSepList : List JVal → String
  | [] => ""
  | [x] => pyRepr x
  | x :: y :: rest => pyRepr x ++ ", " ++ pyReprSepList (y :: rest)

/-- Comma-separated `repr`s of dict entries. -/
def pyReprSepPairs : List (String × JVal) → String
  | [] => ""
  | [(k, v)] => pyQuote ++ k ++ pyQuote ++ ": " ++ pyRepr v
  | (k, v) :: kv :: rest =>
      pyQuote ++ k ++ pyQuote ++ ": " ++ pyRepr v ++ ", " ++ pyReprSepPairs (kv :: rest)

end

/-- Python `str()` on JSON-shaped values: identity on strings, `repr`
otherwise (which is what `str` does on `None`, booleans, ints, lists, dicts). -/
def pyStr : JVal → String
  | .str s => s
  | v => pyRepr v

/-- Python subscript `data[k]` with a string key: `KeyError` when the key is
missing from a dict, `TypeError` when the value is not a dict. -/
def pyIndex (v : JVal) (k : String) : Except PyExc JVal :=
  match v with
  | .obj kvs =>
      match lookupKV kvs k with
      | some x => .ok x
      | none => .error (.keyError k)
  | _ => .error .typeError

/-- Python `data.get(k)`: `none` models the `None` default; raises
`AttributeError` when the receiver is not a dict. -/
def pyGet (v : JVal) (k : String) : Except PyExc (Option JVal) :=
  match v with
  | .obj kvs => .ok (lookupKV kvs k)
  | _ => .error .attributeError

/-- Python `data.get(k, default)`. -/
def pyGetD (v : JVal) (k : String) (d : JVal) : Except PyExc JVal := do
  let r ← pyGet v k
  pure (r.getD d)

/-- Python iteration `for x in v`: lists yield elements, strings yield
one-character strings, dicts yield their keys; other values raise
`TypeError`. -/
def iterElems : JVal → Except PyExc (List JVal)
  | .arr xs => .ok xs
  | .str s => .ok (s.data.map (fun c => JVal.str (String.singleton c)))
  | .obj kvs => .ok (kvs.map (fun kv => JVal.str kv.1))
  | _ => .error .typeError

/-- Python `len(v)` on JSON-shaped values. -/
def pyLen : JVal → Except PyExc Nat
  | .arr xs => .ok xs.length
  | .str s => .ok s.length
  | .obj kvs => .ok kvs.length
  | _ => .error .typeError

/-- Python subscript `v[i]` with a non-negative integer index (lists and
strings support it; dict subscripting with an int key that is absent raises
`KeyError`, and our objects only have string keys). -/
def pyIndexNat (v : JVal) (i : Nat) : Except PyExc JVal :=
  match v with
  | .arr xs =>
      match xs.get? i with
      | some x => .ok x
      | none => .error .typeError
  | .str s =>
      match s.data.get? i with
      | some c => .ok (.str (String.singleton c))
      | none => .error .typeError
  | .obj _ => .error (.keyError (toString i))
  | _ => .error .typeError

/-- `isinstance(v, dict)`. -/
def isObjB : JVal → Bool
  | .obj _ => true
  | _ => false

/-! ## SHA-256 (`hashlib.sha256`), HMAC (`hmac`), base64, hex, UTF-8

The source delegates to Python's standard library for these; they are
implemented here so that the embedding is executable.  32-bit words are `Nat`
reduced modulo `2 ^ 32`. -/

/-- Truncate to a 32-bit word. -/
def w32 (x : Nat) : Nat := x % 4294967296

/-- 32-bit right rotation. -/
def rotr32 (n x : Nat) : Nat := w32 ((x >>> n) ||| (x <<< (32 - n)))

def shaBigSigma0 (x : Nat) : Nat := rotr32 2 x ^^^ rotr32 13 x ^^^ rotr32 22 x

def shaBigSigma1 (x : Nat) : Nat := rotr32 6 x ^^^ rotr32 11 x ^^^ rotr32 25 x

def shaSmallSigma0 (x : Nat) : Nat := rotr32 7 x ^^^ rotr32 18 x ^^^ (x >>> 3)

def shaSmallSigma1 (x : Nat) : Nat := rotr32 17 x ^^^ rotr32 19 x ^^^ (x >>> 10)

def shaCh (x y z : Nat) : Nat := (x &&& y) ^^^ ((x ^^^ 0xffffffff) &&& z)

def shaMaj (x y z : Nat) : Nat := (x &&& y) ^^^ (x &&& z) ^^^ (y &&& z)

/-- Primality by trial division, used only to derive the standard hash
constants from their FIPS 180-4 definition. -/
def isPrimeB (n : Nat) : Bool :=
  decide (2 ≤ n) && ((List.range n).drop 2).all (fun d => n % d != 0)

def firstPrimes (count : Nat) : List Nat :=
  ((List.range 320).filter isPrimeB).take count

def cbrtGo (n : Nat) : Nat → Nat → Nat → Nat
  | 0, lo, _ => lo
  | fuel + 1, lo, hi =>
      if hi ≤ lo + 1 then lo
      else
        let mid := (lo + hi) / 2
        if mid * mid * mid ≤ n then cbrtGo n fuel mid hi else cbrtGo n fuel lo mid

/-- Integer cube root: the largest m with m³ ≤ n. -/
def cbrtFloor (n : Nat) : Nat := cbrtGo n 130 0 (n + 1)

/-- The 64 SHA-256 round constants: the first 32 bits of the fractional parts
of the cube roots of the first 64 primes (FIPS 180-4 §4.2.2). -/
def shaK : List Nat :=
  (firstPrimes 64).map (fun p => cbrtFloor (p * 2 ^ 96) % 4294967296)

/-- The eight 32-bit words of SHA-256 chaining state. -/
structure Hash8 where
  a : Nat
  b : Nat
  c : Nat
  d : Nat
  e : Nat
  f : Nat
  g : Nat
  h : Nat
deriving Repr

/-- The SHA-256 initial hash words: the first 32 bits of the fractional parts
of the square roots of the first 8 primes (FIPS 180-4 §5.3.3). -/
def sha256InitWords : List Nat :=
  (firstPrimes 8).map (fun p => Nat.sqrt (p * 2 ^ 64) % 4294967296)

def sha256Init : Hash8 :=
  ⟨sha256InitWords.getD 0 0, sha256InitWords.getD 1 0, sha256InitWords.getD 2 0,
   sha256InitWords.getD 3 0, sha256InitWords.getD 4 0, sha256InitWords.getD 5 0,
   sha256InitWords.getD 6 0, sha256InitWords.getD 7 0⟩

/-- Big-endian bytes of `n`, `k` bytes wide. -/
def natToBytesBE (k n : Nat) : List Nat :=
  (List.range k).map (fun i => (n >>> (8 * (k - 1 - i))) % 256)

/-- SHA-256 message padding: a 0x80 byte, zeros to 56 mod 64, then the bit
length as a 64-bit big-endian integer. -/
def sha256Pad (msg : List Nat) : List Nat :=
  msg ++ [0x80] ++ List.replicate ((119 - (msg.length % 64)) % 64) 0 ++
    natToBytesBE 8 (8 * msg.length)

/-- Group bytes into big-endian 32-bit words (incomplete tail groups dropped;
padded input is always a multiple of 4). -/
def toWordsBE : List Nat → List Nat
  | b0 :: b1 :: b2 :: b3 :: rest =>
      (((b0 * 256 + b1) * 256 + b2) * 256 + b3) :: toWordsBE rest
  | _ => []

/-- Split a byte list into 64-byte blocks. -/
def blocks64 (l : List Nat) : List (List Nat) :=
  match l with
  | [] => []
  | x :: xs => (x :: xs).take 64 :: blocks64 (xs.drop 63)
termination_by l.length
decreasing_by
  simp only [List.length_drop, List.length_cons]
  omega

/-- Extend the 16-word message schedule by `n` further words. -/
def extendW : Nat → List Nat → List Nat
  | 0, w => w
  | n + 1, w =>
      let i := w.length
      let s0 := shaSmallSigma0 (w.getD (i - 15) 0)
      let s1 := shaSmallSigma1 (w.getD (i - 2) 0)
      extendW n (w ++ [w32 (w.getD (i - 16) 0 + s0 + w.getD (i - 7) 0 + s1)])

/-- One SHA-256 compression round. -/
def sha256Round (st : Hash8) (kt wt : Nat) : Hash8 :=
  let t1 := w32 (st.h + shaBigSigma1 st.e + shaCh st.e st.f st.g + kt + wt)
  let t2 := w32 (shaBigSigma0 st.a + shaMaj st.a st.b st.c)
  ⟨w32 (t1 + t2), st.a, st.b, st.c, w32 (st.d + t1), st.e, st.f, st.g⟩

/-- Compress one 64-byte block into the chaining state. -/
def sha256Compress (h0 : Hash8) (block : List Nat) : Hash8 :=
  let w := extendW 48 (toWordsBE block)
  let st := (shaK.zip w).foldl (fun st kw => sha256Round st kw.1 kw.2) h0
  ⟨w32 (h0.a + st.a), w32 (h0.b + st.b), w32 (h0.c + st.c), w32 (h0.d + st.d),
   w32 (h0.e + st.e), w32 (h0.f + st.f), w32 (h0.g + st.g), w32 (h0.h + st.h)⟩

/-- Big-endian bytes of one 32-bit word. -/
def wordBytesBE (x : Nat) : List Nat :=
  [(x >>> 24) % 256, (x >>> 16) % 256, (x >>> 8) % 256, x % 256]

/-- SHA-256 of a byte string, as 32 bytes (`hashlib.sha256(...).digest()`). -/
def sha256 (msg : List Nat) : List Nat :=
  let hh := (blocks64 (sha256Pad msg)).foldl sha256Compress sha256Init
  wordBytesBE hh.a ++ wordBytesBE hh.b ++ wordBytesBE hh.c ++ wordBytesBE hh.d ++
    wordBytesBE hh.e ++ wordBytesBE hh.f ++ wordBytesBE hh.g ++ wordBytesBE hh.h

def hexChar (n : Nat) : Char := "0123456789abcdef".toList.getD n '0'

def bytesToHex : List Nat → List Char
  | [] => []
  | b :: rest => hexChar (b / 16) :: hexChar (b % 16) :: bytesToHex rest

/-- `.hexdigest()`: lowercase hex rendering of a byte string. -/
def hexDigest (bs : List Nat) : String := String.mk (bytesToHex bs)

/-- HMAC-SHA256 (`hmac.new(key, msg, hashlib.sha256).digest()`), block size
64 bytes. -/
def hmacSha256 (key msg : List Nat) : List Nat :=
  let k0 := if 64 < key.length then sha256 key else key
  let kp := k0 ++ List.replicate (64 - k0.length) 0
  sha256 ((kp.map (fun b => b ^^^ 0x5c)) ++ sha256 ((kp.map (fun b => b ^^^ 0x36)) ++ msg))

def base64Alphabet : List Char :=
  "ABCDEFGHIJKLMNOPQRSTUVWXYZabcdefghijklmnopqrstuvwxyz0123456789+/".toList

def b64c (n : Nat) : Char := base64Alphabet.getD n 'A'

/-- Standard base64 with `=` padding (`base64.b64encode`). -/
def b64encodeChars : List Nat → List Char
  | [] => []
  | [b0] => [b64c (b0 / 4), b64c (b0 % 4 * 16), '=', '=']
  | [b0, b1] => [b64c (b0 / 4), b64c (b0 % 4 * 16 + b1 / 16), b64c (b1 % 16 * 4), '=']
  | b0 :: b1 :: b2 :: rest =>
      b64c (b0 / 4) :: b64c (b0 % 4 * 16 + b1 / 16) ::
        b64c (b1 % 16 * 4 + b2 / 64) :: b64c (b2 % 64) :: b64encodeChars rest

def b64encode (bs : List Nat) : String := String.mk (b64encodeChars bs)

/-- UTF-8 encoding of a single code point. -/
def utf8EncodeCP (n : Nat) : List Nat :=
  if n < 0x80 then [n]
  else if n < 0x800 then [0xc0 + n / 64, 0x80 + n % 64]
  else if n < 0x10000 then [0xe0 + n / 4096, 0x80 + n / 64 % 64, 0x80 + n % 64]
  else [0xf0 + n / 262144, 0x80 + n / 4096 % 64, 0x80 + n / 64 % 64, 0x80 + n % 64]

/-- Python `s.encode()` (UTF-8 bytes of a string). -/
def utf8Bytes (s : String) : List Nat :=
  (s.data.map (fun c => utf8EncodeCP c.toNat)).flatten

def hexDigitVal? (c : Char) : Option Nat :=
  if '0' ≤ c ∧ c ≤ '9' then some (c.toNat - 48)
  else if 'a' ≤ c ∧ c ≤ 'f' then some (c.toNat - 87)
  else if 'A' ≤ c ∧ c ≤ 'F' then some (c.toNat - 55)
  else none

def hexPairs : List Char → Option (List Nat)
  | [] => some []
  | [_] => none
  | c1 :: c2 :: rest => do
      let hi ← hexDigitVal? c1
      let lo ← hexDigitVal? c2
      let r ← hexPairs rest
      pure ((hi * 16 + lo) :: r)

/-- `bytes.fromhex` on a plain even-length hex string (the tolerated ASCII
spaces between pairs are not modelled; decryption keys contain none). -/
def hexDecode (s : String) : Option (List Nat) := hexPairs s.data

/-! ## AES-CTR (`Crypto.Cipher.AES`, `MODE_CTR`)

`decrypt_data` in `src/ymd/music_api/downloader/decrypt.py` (and its twin in
`src/ymd/api.py`) calls pycryptodome with a hex-decoded key and a fixed
12-zero-byte nonce.  The cipher is implemented here: the AES S-box is computed
from its definition (GF(2^8) inverse plus affine map), the key schedule is
generic over 128/192/256-bit keys, and CTR keystream byte `i` is byte
`i mod 16` of the encryption of counter block `i / 16`. -/

/-- Multiplication by x in GF(2^8) modulo the AES polynomial. -/
def xtime (a : Nat) : Nat := if 0x80 ≤ a then (a * 2) ^^^ 0x11b else a * 2

def gmulGo : Nat → Nat → Nat → Nat → Nat
  | 0, _, _, acc => acc
  | n + 1, a, b, acc =>
      gmulGo n (xtime a) (b / 2) (if b % 2 = 1 then acc ^^^ a else acc)

/-- GF(2^8) multiplication. -/
def gmul (a b : Nat) : Nat := gmulGo 8 a b 0

/-- GF(2^8) multiplicative inverse (0 maps to 0). -/
def ginv (a : Nat) : Nat := ((List.range 256).find? (fun b => gmul a b == 1)).getD 0

/-- 8-bit left rotation. -/
def rotl8 (n x : Nat) : Nat := ((x <<< n) ||| (x >>> (8 - n))) % 256

/-- The AES S-box. -/
def sbox (b : Nat) : Nat :=
  let x := ginv b
  x ^^^ rotl8 1 x ^^^ rotl8 2 x ^^^ rotl8 3 x ^^^ rotl8 4 x ^^^ 0x63

def subWord (x : Nat) : Nat :=
  ((sbox ((x >>> 24) % 256) * 256 + sbox ((x >>> 16) % 256)) * 256 +
      sbox ((x >>> 8) % 256)) * 256 + sbox (x % 256)

def rotWord (x : Nat) : Nat := w32 ((x <<< 8) ||| (x >>> 24))

/-- Successive round-constant bytes 01, 02, 04, ... -/
def rconPow : Nat → Nat
  | 0 => 1
  | n + 1 => xtime (rconPow n)

def expandKeyGo (nk : Nat) : Nat → List Nat → List Nat
  | 0, ws => ws
  | n + 1, ws =>
      let i := ws.length
      let t0 := ws.getD (i - 1) 0
      let t :=
        if i % nk = 0 then subWord (rotWord t0) ^^^ (rconPow (i / nk - 1) <<< 24)
        else if 6 < nk ∧ i % nk = 4 then subWord t0
        else t0
      expandKeyGo nk n (ws ++ [ws.getD (i - nk) 0 ^^^ t])

/-- AES key expansion into `4 * (Nr + 1)` 32-bit words. -/
def expandKey (keyBytes : List Nat) : List Nat :=
  let nk := keyBytes.length / 4
  expandKeyGo nk (4 * (nk + 7) - nk) (toWordsBE keyBytes)

def subBytesS (s : List Nat) : List Nat := s.map sbox

/-- ShiftRows on the 16-byte state in input (column-major) order. -/
def shiftRowsS (s : List Nat) : List Nat :=
  (List.range 16).map (fun i => s.getD (4 * ((i / 4 + i % 4) % 4) + i % 4) 0)

def mixColumn : List Nat → List Nat
  | [a0, a1, a2, a3] =>
      [gmul 2 a0 ^^^ gmul 3 a1 ^^^ a2 ^^^ a3,
       a0 ^^^ gmul 2 a1 ^^^ gmul 3 a2 ^^^ a3,
       a0 ^^^ a1 ^^^ gmul 2 a2 ^^^ gmul 3 a3,
       gmul 3 a0 ^^^ a1 ^^^ a2 ^^^ gmul 2 a3]
  | s => s

def mixColumnsS (s : List Nat) : List Nat :=
  mixColumn (s.take 4) ++ mixColumn ((s.drop 4).take 4) ++
    mixColumn ((s.drop 8).take 4) ++ mixColumn ((s.drop 12).take 4)

def roundKeyBytes (ws : List Nat) (r : Nat) : List Nat :=
  wordBytesBE (ws.getD (4 * r) 0) ++ wordBytesBE (ws.getD (4 * r + 1) 0) ++
    wordBytesBE (ws.getD (4 * r + 2) 0) ++ wordBytesBE (ws.getD (4 * r + 3) 0)

def addRoundKey (s rk : List Nat) : List Nat := List.zipWith (· ^^^ ·) s rk

def aesMiddleRounds (ws : List Nat) : Nat → Nat → List Nat → List Nat
  | 0, _, s => s
  | n + 1, r, s =>
      aesMiddleRounds ws n (r + 1)
        (addRoundKey (mixColumnsS (shiftRowsS (subBytesS s))) (roundKeyBytes ws r))

/-- AES forward block encryption (Nr = Nk + 6 rounds). -/
def aesEncryptBlock (keyBytes block : List Nat) : List Nat :=
  let nr := keyBytes.length / 4 + 6
  let ws := expandKey keyBytes
  let s0 := addRoundKey block (roundKeyBytes ws 0)
  let s1 := aesMiddleRounds ws (nr - 1) 1 s0
  addRoundKey (shiftRowsS (subBytesS s1)) (roundKeyBytes ws nr)

/-- CTR counter block: 12-byte zero nonce followed by a 4-byte big-endian
block counter starting at 0 (pycryptodome layout for `nonce=bytes(12)`). -/
def ctrBlock (i : Nat) : List Nat := List.replicate 12 0 ++ natToBytesBE 4 (i % 4294967296)

/-- Byte `i` of the CTR keystream. -/
def keystreamByte (key : List Nat) (i : Nat) : Nat :=
  (aesEncryptBlock key (ctrBlock (i / 16))).getD (i % 16) 0

/-- CTR encryption/decryption: XOR the data with the keystream (the two
directions are the same operation). -/
def ctrCrypt (key data : List Nat) : List Nat :=
  (List.range data.length).map (fun i => data.getD i 0 ^^^ keystreamByte key i)

/-- `decrypt_data(data, key)` from
`src/ymd/music_api/downloader/decrypt.py` / `src/ymd/api.py`: hex-decode the
key, build an AES-CTR cipher with `nonce=bytes(12)`, and XOR-decrypt.  An
invalid hex string or an invalid key length is a `ValueError` from the
libraries. -/
def decrypt_data (data : List Nat) (key : String) : Except PyExc (List Nat) :=
  match hexDecode key with
  | none => .error .valueError
  | some kb =>
      if kb.length = 16 ∨ kb.length = 24 ∨ kb.length = 32 then .ok (ctrCrypt kb data)
      else .error .valueError

/-- Modelled from the spec: there is no encryption routine in the repository
(the service encrypts); §4.4 and §8 describe encryption as the AES-CTR
operation under the same key and the same fixed 12-zero-byte nonce, which in
CTR mode is the identical keystream-XOR computation as `decrypt_data`. -/
def encrypt_data (data : List Nat) (key : String) : Except PyExc (List Nat) :=
  match hexDecode key with
  | none => .error .valueError
  | some kb =>
      if kb.length = 16 ∨ kb.length = 24 ∨ kb.length = 32 then .ok (ctrCrypt kb data)
      else .error .valueError

/-! ## Request signing (`src/ymd/request_signing.py`, `src/ymd/api.py`)

`sign_params` and `_sign_params` are the same function in the two rewrites of
the tool; the parameter set is the `TrackInfoRequestParams` TypedDict/pydantic
model with fields declared (and dicts constructed) in the order
ts, trackId, quality, codecs, transports. -/

/-- The `ApiTrackQuality` StrEnum from `src/ymd/music_api/track_info/params.py`
and `src/ymd/api.py`. -/
inductive ApiTrackQuality where
  | LOW
  | NORMAL
  | LOSSLESS
deriving DecidableEq, Repr

/-- `str()` of a StrEnum member is its value. -/
def ApiTrackQuality.value : ApiTrackQuality → String
  | .LOW => "lq"
  | .NORMAL => "nq"
  | .LOSSLESS => "lossless"

/-- `TrackInfoRequestParams`: the five request parameters, in declaration
(= dict insertion) order. -/
structure TrackInfoRequestParams where
  ts : Int
  trackId : Int
  quality : ApiTrackQuality
  codecs : String
  transports : String
deriving DecidableEq, Repr

/-- Modelled from the spec: the fixed, publicly-known shared secret
(`DEFAULT_SIGN_KEY` is imported from the external `yandex_music` library, so
its literal is outside this repository; no theorem below depends on the
literal's value, only on it being one fixed string). -/
def DEFAULT_SIGN_KEY : String := "p93jhgh689SBReK6ghtw62"

/-- Python `s.replace(",", "")`: with an empty replacement every occurrence of
the one-character pattern is deleted. -/
def removeCommas (s : String) : String := String.mk (s.data.filter (fun c => c ≠ ','))

/-- The signer's output dict: the five parameters plus `sign`, with fields in
the order the source builds the returned dict. -/
structure SignedTrackInfoRequestParams where
  ts : Int
  trackId : Int
  quality : ApiTrackQuality
  codecs : String
  transports : String
  sign : String
deriving DecidableEq, Repr

/-- `sign_params` from `src/ymd/request_signing.py` (identical to
`_sign_params` in `src/ymd/api.py`): join `str()` of the five values in dict
order, delete commas, HMAC-SHA256 under `DEFAULT_SIGN_KEY`, base64-encode the
digest, cut the last character, return the five parameters plus `sign`. -/
def sign_params (params : TrackInfoRequestParams) : SignedTrackInfoRequestParams :=
  let serialized :=
    removeCommas (String.join
      [toString params.ts, toString params.trackId, params.quality.value,
       params.codecs, params.transports])
  let hmac_sign := hmacSha256 (utf8Bytes DEFAULT_SIGN_KEY) (utf8Bytes serialized)
  let sign := String.mk (b64encodeChars hmac_sign).dropLast
  { ts := params.ts, trackId := params.trackId, quality := params.quality,
    codecs := params.codecs, transports := params.transports, sign := sign }

/-- Modelled from the spec, §4.2 steps 1–5, for comparison with
`sign_params`: take the values in the fixed sequence ts, trackId, quality,
codecs, transports; concatenate their string representations with no
separator; remove every literal comma; HMAC-SHA256 the bytes under the fixed
shared secret; base64-encode the digest and drop its final character; return
the original five parameters plus `sign`, in that order. -/
def signSpec (params : TrackInfoRequestParams) : SignedTrackInfoRequestParams :=
  let values :=
    [toString params.ts, toString params.trackId, params.quality.value,
     params.codecs, params.transports]
  let concatenated := values.foldl (· ++ ·) ""
  let message := String.mk (concatenated.data.filter (fun c => c ≠ ','))
  let digest := hmacSha256 (utf8Bytes DEFAULT_SIGN_KEY) (utf8Bytes message)
  let sign := String.mk (b64encodeChars digest).dropLast
  { ts := params.ts, trackId := params.trackId, quality := params.quality,
    codecs := params.codecs, transports := params.transports, sign := sign }

/-! ## Codec mapping (`src/ymd/music_api/file_format.py`, `fetch.py`) -/

inductive Container where
  | FLAC
  | MP3
  | MP4
deriving DecidableEq, Repr

inductive Codec where
  | FLAC
  | MP3
  | AAC
deriving DecidableEq, Repr

structure FileFormat where
  container : Container
  codec : Codec
deriving DecidableEq, Repr

/-- `FILE_FORMAT_MAPPING` from `src/ymd/music_api/file_format.py` (and its
copy in `src/ymd/api.py`), in source order. -/
def FILE_FORMAT_MAPPING : List (String × FileFormat) :=
  [("flac", ⟨.FLAC, .FLAC⟩),
   ("flac-mp4", ⟨.MP4, .FLAC⟩),
   ("mp3", ⟨.MP3, .MP3⟩),
   ("aac", ⟨.MP4, .AAC⟩),
   ("he-aac", ⟨.MP4, .AAC⟩),
   ("aac-mp4", ⟨.MP4, .AAC⟩),
   ("he-aac-mp4", ⟨.MP4, .AAC⟩)]

/-- Dict lookup `FILE_FORMAT_MAPPING.get(codec)`. -/
def lookupFileFormat (codec : String) : Option FileFormat :=
  FILE_FORMAT_MAPPING.lookup codec

/-- The subscript `FILE_FORMAT_MAPPING[download_info.codec]` inside
`get_download_info` (`src/ymd/music_api/track_info/fetch.py` line 58,
`src/ymd/api.py` line 170): a missing key raises `KeyError`. -/
def resolveFileFormat (codec : String) : Except PyExc FileFormat :=
  match lookupFileFormat codec with
  | some f => .ok f
  | none => .error (.keyError codec)

/-- `",".join(FILE_FORMAT_MAPPING.keys())`, the advertised codec list. -/
def advertisedCodecs : String :=
  String.intercalate "," (FILE_FORMAT_MAPPING.map Prod.fst)

/-- The validated `download_info` object of the get-file-info response
(`_RawTrackDownloadInfoResponse` / `_TrackDownloadInfo`). -/
structure RawTrackDownloadInfo where
  quality : String
  codec : String
  urls : List String
  bitrate : Int
  key : Option String
deriving DecidableEq, Repr

/-- `TrackDownloadInfo` / `CustomDownloadInfo`, the resolver's output. -/
structure TrackDownloadInfo where
  quality : String
  file_format : FileFormat
  urls : List String
  decryption_key : String
  bitrate : Int
deriving DecidableEq, Repr

/-- The response-processing tail of `get_download_info`: map the codec string
through `FILE_FORMAT_MAPPING` (raising `KeyError` on an unknown codec) and
default the decryption key to `""` when absent or empty
(`download_info.key if download_info.key else ""`). -/
def processDownloadInfo (d : RawTrackDownloadInfo) : Except PyExc TrackDownloadInfo := do
  let ff ← resolveFileFormat d.codec
  pure
    { quality := d.quality, file_format := ff, urls := d.urls,
      decryption_key := match d.key with
        | some k => if k = "" then "" else k
        | none => "",
      bitrate := d.bitrate }

/-! ## Track/album/artist normalizers (`src/ymd/ym_api/models.py`) -/

structure CoverInfo where
  cover_url_template : Option String
deriving Repr

/-- `og_image is None or og_image == ""` (comparison with `""` is `False` for
non-strings in Python). -/
def isNoneOrEmptyStr : JVal → Bool
  | .null => true
  | .str s => s = ""
  | _ => false

/-- `CoverInfo.from_json`. -/
def CoverInfo_from_json (data : JVal) : Except PyExc CoverInfo := do
  let og := (← pyGet data "ogImage").getD .null
  if isNoneOrEmptyStr og then pure ⟨none⟩
  else pure ⟨some ("https://" ++ pyStr og)⟩

/-- `BasicArtistInfo`; the dataclass stores whatever JSON values it is given
(Python does not enforce the `str` annotations at runtime), so the fields keep
the raw values. -/
structure BasicArtistInfo where
  id : JVal
  name : JVal
deriving Repr

/-- `BasicArtistInfo.from_json`. -/
def BasicArtistInfo_from_json (data : JVal) : Except PyExc BasicArtistInfo := do
  let i ← pyIndex data "id"
  let n ← pyIndex data "name"
  pure ⟨i, n⟩

/-- The accumulation loop of `parse_artists` (`models.py` lines 172–179):
append each artist entry, then every `dict` element of its truthy
`decomposed` field. -/
def collectArtistEntries : List JVal → Except PyExc (List JVal)
  | [] => pure []
  | a :: rest => do
      let dec := (← pyGet a "decomposed").getD .null
      let extra ←
        if truthy dec then do
          let ds ← iterElems dec
          pure (ds.filter isObjB)
        else pure []
      let tail ← collectArtistEntries rest
      pure (a :: extra ++ tail)

/-- `parse_artists`. -/
def parse_artists (data : JVal) : Except PyExc (List BasicArtistInfo) := do
  let entries ← iterElems data
  let flat ← collectArtistEntries entries
  flat.mapM BasicArtistInfo_from_json

/-- `parse_title` (`models.py` lines 183–187): return `data["title"]`
unchanged unless a truthy `version` is present, in which case format
`"{title} ({version})"` (which `str()`-converts both pieces). -/
def parse_title (data : JVal) : Except PyExc JVal := do
  let title ← pyIndex data "title"
  let version := (← pyGet data "version").getD .null
  if truthy version then pure (.str (pyStr title ++ " (" ++ pyStr version ++ ")"))
  else pure title

/-- The `release_date` field of `BasicAlbumInfo`: the walrus
`if release_date := data.get("releaseDate"):` leaves the falsy value in place
(in particular `None` when the key is absent) and otherwise replaces it by the
parsed datetime, modelled by its accepted source text. -/
inductive AlbumReleaseDate where
  | raw (v : JVal)
  | datetime (iso : String)
deriving Repr

def isIsoDateLike (s : String) : Bool :=
  let cs := s.data
  decide (10 ≤ cs.length) && (cs.take 4).all Char.isDigit && (cs.getD 4 ' ' = '-') &&
    ((cs.drop 5).take 2).all Char.isDigit && (cs.getD 7 ' ' = '-') &&
    ((cs.drop 8).take 2).all Char.isDigit

/-- Simplified model of the external `datetime.fromisoformat`: accepts a
string starting with a YYYY-MM-DD date, raises `TypeError` on non-strings and
`ValueError` on malformed text.  No claim depends on its exact acceptance
set. -/
def fromisoformat : JVal → Except PyExc String
  | .str s => if isIsoDateLike s then .ok s else .error .valueError
  | _ => .error .typeError

structure BasicAlbumInfo where
  id : JVal
  title : JVal
  release_date : AlbumReleaseDate
  year : Option JVal
  artists : List BasicArtistInfo
  meta_type : JVal
deriving Repr

/-- `BasicAlbumInfo.from_json`.  The `Optional` in the source annotation is
never realized: the function always returns a constructed record (the
`if album is None` guard in the track parser is dead code). -/
def BasicAlbumInfo_from_json (data : JVal) : Except PyExc BasicAlbumInfo := do
  let artists ← parse_artists (← pyIndex data "artists")
  let title ← parse_title data
  let rdRaw := (← pyGet data "releaseDate").getD .null
  let release_date ←
    if truthy rdRaw then do
      let iso ← fromisoformat rdRaw
      pure (AlbumReleaseDate.datetime iso)
    else pure (AlbumReleaseDate.raw rdRaw)
  let i ← pyIndex data "id"
  let year ← pyGet data "year"
  let meta_type ← pyIndex data "metaType"
  pure ⟨i, title, release_date, year, artists, meta_type⟩

structure BasicTrackInfo where
  title : JVal
  id : String
  real_id : JVal
  album : BasicAlbumInfo
  number : JVal
  disc_number : JVal
  artists : List BasicArtistInfo
  has_lyrics : JVal
  cover_info : CoverInfo
deriving Repr

/-- The Python dict literal `{"index": 1, "volume": 1}`, the default track
position. -/
def defaultTrackPosition : JVal := .obj [("index", .num 1), ("volume", .num 1)]

/-- The `try:` body of `BasicTrackInfo.from_json` (`models.py` lines 96–133),
before the exception handler: `.ok none` is the `available`-rejection path,
`.error` is any raised exception. -/
def BasicTrackInfo_from_json_body (data : JVal) : Except PyExc (Option BasicTrackInfo) := do
  let avail ← pyIndex data "available"
  if ¬ truthy avail then pure none
  else do
    let track_id := pyStr (← pyIndex data "id")
    let title ← parse_title data
    let albums_data ← pyIndex data "albums"
    let artists ← parse_artists (← pyIndex data "artists")
    let n ← pyLen albums_data
    let state ←
      if n ≠ 0 then do
        let album_data ← pyIndexNat albums_data 0
        let album ← BasicAlbumInfo_from_json album_data
        let tp ← pyGetD album_data "trackPosition" defaultTrackPosition
        pure (album, tp)
      else
        pure (⟨.str track_id, title, .raw .null, none, artists, .str "music"⟩,
          defaultTrackPosition)
    let album := state.1
    let track_position := state.2
    let cover_info ← CoverInfo_from_json data
    let li ← pyGetD data "lyricsInfo" (.obj [])
    let has_lyrics := (← pyGet li "hasAvailableTextLyrics").getD (.bool false)
    let real_id ← pyIndex data "realId"
    let number ← pyIndex track_position "index"
    let disc_number ← pyIndex track_position "volume"
    pure (some ⟨title, track_id, real_id, album, number, disc_number, artists,
      has_lyrics, cover_info⟩)

/-- Logging calls observable from `BasicTrackInfo.from_json`: the source logs
only `logger.error(traceback.format_exc())`, in the exception handler. -/
inductive LogLevel where
  | info
  | error
deriving DecidableEq, Repr

/-- `BasicTrackInfo.from_json` with its `try/except Exception` wrapper: an
exception is swallowed, logged at error level, and turned into `None`.  The
second component records the log calls made. -/
def BasicTrackInfo_from_json (data : JVal) : Option BasicTrackInfo × List LogLevel :=
  match BasicTrackInfo_from_json_body data with
  | .ok r => (r, [])
  | .error _ => (none, [.error])

/-- `full_title` from `src/ymd/core.py` lines 124–130, over the
`yandex_music` model's optional `title`/`version` attributes: `None` title
gives `""`; a truthy version appends `" ({version})"`. -/
def full_title (title version : Option String) : String :=
  match title with
  | none => ""
  | some t =>
      match version with
      | some v => if v ≠ "" then t ++ " (" ++ v ++ ")" else t
      | none => t

/-! ## `write_via_temporary_file` (`src/ymd/core.py` lines 415–432)

The filesystem is a map from paths to optional byte contents; a path is its
parent directory plus file name (paths are assumed normalized, so equality of
the pair is path equality).  The data write and the hook are the two fallible
steps; each failure oracle carries the bytes it leaves behind in the temporary
file, so the theorems hold for every possible partial effect.  The hook is
applied to the temporary file's content, which is how the only caller
(`set_tags` via `download_track`) uses it. -/

structure PyPath where
  parent : String
  name : String
deriving DecidableEq, Repr

def FS : Type := PyPath → Option (List Nat)

def fsUpdate (fs : FS) (p : PyPath) (c : Option (List Nat)) : FS :=
  fun q => if q = p then c else fs q

/-- `Path.rename`: the destination takes the source's content (POSIX rename
overwrites), the source disappears. -/
def fsRename (fs : FS) (src dst : PyPath) : FS :=
  fun p => if p = dst then fs src else if p = src then none else fs p

/-- `TEMPORARY_FILE_NAME_TEMPLATE.format(hashlib.sha256(name.encode()).hexdigest())`. -/
def TEMPORARY_FILE_NAME (targetName : String) : String :=
  ".yandex-music-downloader." ++ hexDigest (sha256 (utf8Bytes targetName)) ++ ".tmp"

/-- `write_via_temporary_file(data, target_path, temporary_file_hook)`:
write `data` to the derived temporary file in the target's directory, run the
hook on it, and only then rename it onto the target.  `write_bytes` or the
hook raising `InterruptedError` unlinks the temporary file and re-raises; any
other exception propagates with the temporary file left behind.  The first
component of the result is the propagated exception, if any. -/
def write_via_temporary_file (fs : FS) (data : List Nat) (target : PyPath)
    (writeResult : Except (PyExc × List Nat) Unit)
    (hook : Option (List Nat → Except (PyExc × List Nat) (List Nat))) :
    Option PyExc × FS :=
  let temporary_file : PyPath := ⟨target.parent, TEMPORARY_FILE_NAME target.name⟩
  match writeResult with
  | .error (e, leftover) =>
      let fs1 := fsUpdate fs temporary_file (some leftover)
      if e = .interruptedError then (some e, fsUpdate fs1 temporary_file none)
      else (some e, fs1)
  | .ok _ =>
      let fs1 := fsUpdate fs temporary_file (some data)
      match hook with
      | none => (none, fsRename fs1 temporary_file target)
      | some h =>
          match h data with
          | .ok newContent =>
              let fs2 := fsUpdate fs1 temporary_file (some newContent)
              (none, fsRename fs2 temporary_file target)
          | .error (e, leftover) =>
              let fs2 := fsUpdate fs1 temporary_file (some leftover)
              if e = .interruptedError then (some e, fsUpdate fs2 temporary_file none)
              else (some e, fs2)

/-! ## Legacy quality/candidate selector -/

/-- Modelled from the spec: the legacy-protocol candidate selector (§4.3
final paragraph, §4.5) belongs to a rewrite of the tool that is not part of
the src/ snapshot; only the encraw-transport resolver is present there.  The
comparison key is `bitrate * (1.5 if codec=="aac" and bitrate>192 else 0.5 if
codec=="aac" else 1.0)`. -/
def effectiveBitrate (codec : String) (bitrate : Int) : ℚ :=
  (bitrate : ℚ) *
    (if codec = "aac" ∧ 192 < bitrate then 3 / 2
     else if codec = "aac" then 1 / 2
     else 1)

inductive LegacyQuality where
  | best
  | lowest
deriving DecidableEq, Repr

/-- Stable insertion into an ascending list: the new element goes after every
element that is `≤` it, so elements with equal keys keep their input order
(Python's `sorted` is stable). -/
def insSorted (le : α → α → Bool) (x : α) : List α → List α
  | [] => [x]
  | y :: ys => if le y x then y :: insSorted le x ys else x :: y :: ys

/-- Stable ascending sort by repeated insertion. -/
def stableSort (le : α → α → Bool) (l : List α) : List α :=
  l.foldl (fun acc x => insSorted le x acc) []

/-- Modelled from the spec: filter candidates to codecs mp3/aac, sort
ascending by `effectiveBitrate` (stable), pick the last element for best
quality and the first for lowest quality. -/
def selectLegacyCandidate (q : LegacyQuality) (cands : List (String × Int)) :
    Option (String × Int) :=
  let filtered := cands.filter (fun c => c.1 == "mp3" || c.1 == "aac")
  let sorted := stableSort
    (fun a b => decide (effectiveBitrate a.1 a.2 ≤ effectiveBitrate b.1 b.2)) filtered
  match q with
  | .best => sorted.getLast?
  | .lowest => sorted.head?

/-- Modelled from the spec sentence of C8, for comparison with the source
loop of `parse_artists`: an artist entry's decomposed sub-list (empty when
the entry has none or it is not a list). -/
def specDecomposed : JVal → List JVal
  | .obj akvs =>
      match lookupKV akvs "decomposed" with
      | some (.arr ds) => ds
      | _ => []
  | _ => []

/-! ## Supporting lemmas -/

theorem sha256_length (msg : List Nat) : (sha256 msg).length = 32 := by
  simp [sha256, wordBytesBE]

theorem bytesToHex_length (bs : List Nat) : (bytesToHex bs).length = 2 * bs.length := by
  induction bs with
  | nil => rfl
  | cons b rest ih =>
      simp [bytesToHex, ih]
      omega

theorem range_map_getD (d : Nat) (l : List Nat) :
    (List.range l.length).map (fun i => l.getD i d) = l := by
  induction l with
  | nil => rfl
  | cons x xs ih =>
      rw [List.length_cons, List.range_succ_eq_map, List.map_cons, List.map_map]
      simp only [Function.comp_def, List.getD_cons_zero, List.getD_cons_succ]
      rw [ih]

theorem ctrCrypt_length (key data : List Nat) : (ctrCrypt key data).length = data.length := by
  simp [ctrCrypt]

theorem ctrCrypt_ctrCrypt (key data : List Nat) :
    ctrCrypt key (ctrCrypt key data) = data := by
  unfold ctrCrypt
  simp only [List.length_map, List.length_range]
  have step : ∀ i ∈ List.range data.length,
      ((List.range data.length).map
          (fun j => data.getD j 0 ^^^ keystreamByte key j)).getD i 0 ^^^
        keystreamByte key i = data.getD i 0 := by
    intro i hi
    rw [List.mem_range] at hi
    rw [List.getD_eq_getElem?_getD, List.getElem?_map, List.getElem?_range hi]
    simp only [Option.map_some', Option.getD_some]
    rw [Nat.xor_assoc, Nat.xor_self, Nat.xor_zero]
  rw [List.map_congr_left step]
  exact range_map_getD 0 data

theorem except_bind_ok {E α β : Type} {x : Except E α} {f : α → Except E β} {b : β}
    (h : x >>= f = .ok b) : ∃ a, x = .ok a ∧ f a = .ok b := by
  cases x with
  | error e => simp [Bind.bind, Except.bind] at h
  | ok a => exact ⟨a, rfl, by simpa [Bind.bind, Except.bind] using h⟩

theorem ok_bind {E α β : Type} (a : α) (f : α → Except E β) :
    (Except.ok a : Except E α) >>= f = f a := rfl

theorem pure_bind_e {E α β : Type} (a : α) (f : α → Except E β) :
    (pure a : Except E α) >>= f = f a := rfl

theorem pure_def_e {E α : Type} (a : α) : (pure a : Except E α) = .ok a := rfl

theorem TEMPORARY_FILE_NAME_length (s : String) : (TEMPORARY_FILE_NAME s).length = 93 := by
  unfold TEMPORARY_FILE_NAME
  rw [String.length_append, String.length_append]
  have h1 : (hexDigest (sha256 (utf8Bytes s))).length = 64 := by
    show (bytesToHex (sha256 (utf8Bytes s))).length = 64
    rw [bytesToHex_length, sha256_length]
  rw [h1]
  decide

/-- Shared inversion lemma: a track parsed from JSON whose `albums` entry is
the empty array carries the synthesized single-track album and the default
track position. -/
theorem from_json_empty_albums_fields (kvs : List (String × JVal)) (t : BasicTrackInfo)
    (halb : lookupKV kvs "albums" = some (.arr []))
    (h : (BasicTrackInfo_from_json (.obj kvs)).1 = some t) :
    t.album.id = .str t.id ∧ t.album.title = t.title ∧
      t.album.release_date = .raw .null ∧ t.album.year = none ∧
      t.album.meta_type = .str "music" ∧ t.number = .num 1 ∧ t.disc_number = .num 1 := by
  have hb : BasicTrackInfo_from_json_body (.obj kvs) = .ok (some t) := by
    unfold BasicTrackInfo_from_json at h
    rcases hx : BasicTrackInfo_from_json_body (.obj kvs) with e | r
    · rw [hx] at h
      simp at h
    · rw [hx] at h
      simp at h
      rw [h]
  simp only [BasicTrackInfo_from_json_body] at hb
  obtain ⟨avail, ha, hb⟩ := except_bind_ok hb
  by_cases htr : truthy avail
  · simp only [if_neg (by simp [htr] : ¬(¬truthy avail = true))] at hb
    obtain ⟨idv, hid, hb⟩ := except_bind_ok hb
    obtain ⟨title, htitle, hb⟩ := except_bind_ok hb
    obtain ⟨albums_data, halbd, hb⟩ := except_bind_ok hb
    have heq : albums_data = .arr [] := by
      have h2 : pyIndex (.obj kvs) "albums" = .ok (.arr []) := by simp [pyIndex, halb]
      rw [h2] at halbd
      exact (Except.ok.inj halbd).symm
    subst heq
    obtain ⟨artistsJ, hart, hb⟩ := except_bind_ok hb
    obtain ⟨artists, hart2, hb⟩ := except_bind_ok hb
    rw [show pyLen (JVal.arr ([] : List JVal)) = Except.ok 0 from rfl, ok_bind] at hb
    rw [if_neg (by simp)] at hb
    rw [pure_bind_e] at hb
    dsimp only [] at hb
    obtain ⟨cover, hcov, hb⟩ := except_bind_ok hb
    obtain ⟨li, hli, hb⟩ := except_bind_ok hb
    obtain ⟨hlv, hhl, hb⟩ := except_bind_ok hb
    obtain ⟨real_id, hrid, hb⟩ := except_bind_ok hb
    rw [show pyIndex defaultTrackPosition "index" = Except.ok (JVal.num 1) from rfl,
      ok_bind] at hb
    rw [show pyIndex defaultTrackPosition "volume" = Except.ok (JVal.num 1) from rfl,
      ok_bind] at hb
    rw [pure_def_e] at hb
    injection hb with hb
    injection hb with hb
    rw [← hb]
    exact ⟨rfl, rfl, rfl, rfl, rfl, rfl, rfl⟩
  · simp only [if_pos htr] at hb
    simp [pure, Except.pure] at hb

/-- Shared inversion lemma: a track parsed from JSON whose first album entry
lacks a `trackPosition` key gets the default position 1/1. -/
theorem from_json_no_trackPosition_fields (kvs akvs : List (String × JVal))
    (rest : List JVal) (t : BasicTrackInfo)
    (halb : lookupKV kvs "albums" = some (.arr (.obj akvs :: rest)))
    (htp : lookupKV akvs "trackPosition" = none)
    (h : (BasicTrackInfo_from_json (.obj kvs)).1 = some t) :
    t.number = .num 1 ∧ t.disc_number = .num 1 := by
  have hb : BasicTrackInfo_from_json_body (.obj kvs) = .ok (some t) := by
    unfold BasicTrackInfo_from_json at h
    rcases hx : BasicTrackInfo_from_json_body (.obj kvs) with e | r
    · rw [hx] at h
      simp at h
    · rw [hx] at h
      simp at h
      rw [h]
  simp only [BasicTrackInfo_from_json_body] at hb
  obtain ⟨avail, ha, hb⟩ := except_bind_ok hb
  by_cases htr : truthy avail
  · simp only [if_neg (by simp [htr] : ¬(¬truthy avail = true))] at hb
    obtain ⟨idv, hid, hb⟩ := except_bind_ok hb
    obtain ⟨title, htitle, hb⟩ := except_bind_ok hb
    obtain ⟨albums_data, halbd, hb⟩ := except_bind_ok hb
    have heq : albums_data = .arr (.obj akvs :: rest) := by
      have h2 : pyIndex (.obj kvs) "albums" = .ok (.arr (.obj akvs :: rest)) := by
        simp [pyIndex, halb]
      rw [h2] at halbd
      exact (Except.ok.inj halbd).symm
    subst heq
    obtain ⟨artistsJ, hart, hb⟩ := except_bind_ok hb
    obtain ⟨artists, hart2, hb⟩ := except_bind_ok hb
    rw [show pyLen (JVal.arr (JVal.obj akvs :: rest)) = Except.ok (rest.length + 1) from rfl,
      ok_bind] at hb
    rw [if_pos (by omega : rest.length + 1 ≠ 0)] at hb
    obtain ⟨album_data, had, hb⟩ := except_bind_ok hb
    have had2 : album_data = .obj akvs := by
      rw [show pyIndexNat (JVal.arr (JVal.obj akvs :: rest)) 0 =
        Except.ok (JVal.obj akvs) from rfl] at had
      exact (Except.ok.inj had).symm
    subst had2
    obtain ⟨album, halbum, hb⟩ := except_bind_ok hb
    have hgetd : pyGetD (JVal.obj akvs) "trackPosition" defaultTrackPosition =
        Except.ok defaultTrackPosition := by
      simp [pyGetD, pyGet, htp, Bind.bind, Except.bind, pure, Except.pure]
    rw [hgetd, ok_bind, pure_bind_e] at hb
    dsimp only [] at hb
    obtain ⟨cover, hcov, hb⟩ := except_bind_ok hb
    obtain ⟨li, hli, hb⟩ := except_bind_ok hb
    obtain ⟨hlv, hhl, hb⟩ := except_bind_ok hb
    obtain ⟨real_id, hrid, hb⟩ := except_bind_ok hb
    rw [show pyIndex defaultTrackPosition "index" = Except.ok (JVal.num 1) from rfl,
      ok_bind] at hb
    rw [show pyIndex defaultTrackPosition "volume" = Except.ok (JVal.num 1) from rfl,
      ok_bind] at hb
    rw [pure_def_e] at hb
    injection hb with hb
    injection hb with hb
    rw [← hb]
    exact ⟨rfl, rfl⟩
  · simp only [if_pos htr] at hb
    simp [pure, Except.pure] at hb

/-- Shared lemma for C8: the accumulation loop of `parse_artists` computes
the flat-map described by the spec, on inputs whose entries are objects and
whose `decomposed` fields, when present, are falsy or lists. -/
theorem collect_spec : ∀ (entries : List JVal),
    (∀ a ∈ entries, ∃ akvs, a = .obj akvs ∧
      (∀ v, lookupKV akvs "decomposed" = some v → truthy v = false ∨ ∃ ds, v = .arr ds)) →
    collectArtistEntries entries =
      .ok (entries.flatMap (fun a => a :: (specDecomposed a).filter isObjB))
  | [], _ => rfl
  | a :: rest, h => by
      obtain ⟨akvs, rfl, hdec⟩ := h a (by simp)
      have ihr := collect_spec rest (fun x hx => h x (by simp [hx]))
      simp only [collectArtistEntries, pyGet, ok_bind]
      cases hl : lookupKV akvs "decomposed" with
      | none =>
          simp [hl, truthy, specDecomposed, ihr, Bind.bind, Except.bind, pure, Except.pure]
      | some v =>
          rcases hdec v hl with htr | ⟨ds, rfl⟩
          · cases v with
            | arr ds =>
                have hds : ds = [] := by
                  simpa [truthy, List.isEmpty_iff] using htr
                subst hds
                simp [hl, truthy, specDecomposed, ihr, Bind.bind, Except.bind,
                  pure, Except.pure]
            | null =>
                simp [hl, truthy, specDecomposed, ihr, Bind.bind, Except.bind,
                  pure, Except.pure]
            | bool b =>
                have hb2 : b = false := by simpa [truthy] using htr
                subst hb2
                simp [hl, truthy, specDecomposed, ihr, Bind.bind, Except.bind,
                  pure, Except.pure]
            | num n =>
                have hn2 : n = 0 := by simpa [truthy] using htr
                subst hn2
                simp [hl, truthy, specDecomposed, ihr, Bind.bind, Except.bind,
                  pure, Except.pure]
            | str s =>
                have hs2 : s = "" := by simpa [truthy] using htr
                subst hs2
                simp [hl, truthy, specDecomposed, ihr, Bind.bind, Except.bind,
                  pure, Except.pure]
            | obj kvs2 =>
                have hk2 : kvs2 = [] := by simpa [truthy, List.isEmpty_iff] using htr
                subst hk2
                simp [hl, truthy, specDecomposed, ihr, Bind.bind, Except.bind,
                  pure, Except.pure]
          · by_cases hemp : ds = []
            · subst hemp
              simp [hl, truthy, specDecomposed, ihr, Bind.bind, Except.bind,
                pure, Except.pure]
            · have htr : truthy (JVal.arr ds) = true := by
                simp [truthy, List.isEmpty_iff, hemp]
              simp [hl, htr, specDecomposed, ihr, iterElems, Bind.bind, Except.bind,
                pure, Except.pure]

/-! ## Claim theorems -/

/-- Claim C1: for every parameter set with the keys ts, trackId, quality,
codecs, transports, the request signer concatenates the string
representations of the five values in that fixed order with no separator,
removes every literal comma from the concatenation, computes HMAC-SHA256 of
the resulting bytes under the fixed shared secret key, base64-encodes the
digest dropping the final character, and returns the original five
parameters plus the resulting `sign` entry, in that order (`signSpec` is the
spec's step-by-step description, `sign_params` the source). -/
theorem sign_params_matches_spec (p : TrackInfoRequestParams) :
    sign_params p = signSpec p := rfl

/-- Claim C2 counterexample: for the unknown codec string "opus" the
resolver's mapping step raises `KeyError`, not the `UnknownCodecError` the
claim names (no such exception class exists anywhere in the code). -/
theorem resolveFileFormat_opus_not_unknownCodecError :
    resolveFileFormat "opus" = .error (.keyError "opus") ∧
      resolveFileFormat "opus" ≠ .error (.unknownCodecError "opus") := by
  refine ⟨rfl, ?_⟩
  intro h
  simp [resolveFileFormat, lookupFileFormat, FILE_FORMAT_MAPPING, List.lookup] at h

/-- Claim C2 (amended): the codec mapping is total on exactly the seven known
codec strings with the stated (container, codec) values, and for every other
codec string the resolver's lookup raises a `KeyError` (a hard error, never a
silent default) rather than an `UnknownCodecError`. -/
theorem fileFormatMapping_seven_total_and_keyError_otherwise :
    lookupFileFormat "flac" = some ⟨.FLAC, .FLAC⟩ ∧
    lookupFileFormat "flac-mp4" = some ⟨.MP4, .FLAC⟩ ∧
    lookupFileFormat "mp3" = some ⟨.MP3, .MP3⟩ ∧
    lookupFileFormat "aac" = some ⟨.MP4, .AAC⟩ ∧
    lookupFileFormat "he-aac" = some ⟨.MP4, .AAC⟩ ∧
    lookupFileFormat "aac-mp4" = some ⟨.MP4, .AAC⟩ ∧
    lookupFileFormat "he-aac-mp4" = some ⟨.MP4, .AAC⟩ ∧
    ∀ c, c ∉ FILE_FORMAT_MAPPING.map Prod.fst →
      resolveFileFormat c = .error (.keyError c) := by
  refine ⟨rfl, rfl, rfl, rfl, rfl, rfl, rfl, ?_⟩
  intro c hc
  simp [FILE_FORMAT_MAPPING] at hc
  obtain ⟨n1, n2, n3, n4, n5, n6, n7⟩ := hc
  simp [resolveFileFormat, lookupFileFormat, FILE_FORMAT_MAPPING, List.lookup,
    beq_eq_false_iff_ne.2 n1, beq_eq_false_iff_ne.2 n2, beq_eq_false_iff_ne.2 n3,
    beq_eq_false_iff_ne.2 n4, beq_eq_false_iff_ne.2 n5, beq_eq_false_iff_ne.2 n6,
    beq_eq_false_iff_ne.2 n7]

/-- Claim C2 witness: the amended theorem applied to the concrete unknown
codec "opus". -/
theorem fileFormatMapping_keyError_witness :
    resolveFileFormat "opus" = .error (.keyError "opus") :=
  fileFormatMapping_seven_total_and_keyError_otherwise.2.2.2.2.2.2.2 "opus" (by decide)

/-- Claim C3 counterexample: for a raw track JSON with `available=false` the
parser returns `None` but performs no logging call at all, refuting the
claim's "the outcome is logged". -/
theorem from_json_unavailable_logs_nothing :
    BasicTrackInfo_from_json (.obj [("available", .bool false)]) = (none, []) := rfl

/-- Claim C3 (amended): for every raw track JSON object in which the
available flag is falsy or missing, `from_json` returns `None` and raises no
exception; the falsy-flag outcome is silent (nothing is logged), while the
missing-flag case logs the internally caught `KeyError` at error level. -/
theorem from_json_unavailable_returns_none (kvs : List (String × JVal)) :
    (∀ v, lookupKV kvs "available" = some v → truthy v = false →
      BasicTrackInfo_from_json (.obj kvs) = (none, [])) ∧
    (lookupKV kvs "available" = none →
      BasicTrackInfo_from_json (.obj kvs) = (none, [.error])) := by
  constructor
  · intro v hv ht
    simp [BasicTrackInfo_from_json, BasicTrackInfo_from_json_body, pyIndex, hv, ht,
      Bind.bind, Except.bind, pure, Except.pure]
  · intro hv
    simp [BasicTrackInfo_from_json, BasicTrackInfo_from_json_body, pyIndex, hv,
      Bind.bind, Except.bind, pure, Except.pure]

/-- Claim C3 witness: the amended theorem applied to a concrete unavailable
track object. -/
theorem from_json_unavailable_witness :
    BasicTrackInfo_from_json (.obj [("available", .bool false), ("id", .num 3)]) =
      (none, []) :=
  (from_json_unavailable_returns_none [("available", .bool false), ("id", .num 3)]).1
    (.bool false) rfl rfl

/-- Claim C4 counterexample: a raw object with a present but empty `version`
field keeps the bare base title, so "displayed title equals
`{base} ({version})` whenever a version field is present" fails. -/
theorem parse_title_empty_version_present_base_only :
    parse_title (.obj [("title", .str "X"), ("version", .str "")]) = .ok (.str "X") ∧
      (JVal.str "X") ≠ (.str "X ()") := by
  refine ⟨rfl, ?_⟩
  intro h
  simp at h

/-- Claim C4 (amended): the displayed title equals the base title when the
`version` field is absent or falsy (e.g. the empty string), and equals
`"{base} ({version})"` when a truthy version is present; the same rule holds
for the `full_title` variant applied to albums and tracks in `core.py`. -/
theorem title_composition (kvs : List (String × JVal)) (t : JVal)
    (ht : lookupKV kvs "title" = some t) :
    (lookupKV kvs "version" = none → parse_title (.obj kvs) = .ok t) ∧
    (∀ v, lookupKV kvs "version" = some v → truthy v = false →
      parse_title (.obj kvs) = .ok t) ∧
    (∀ v, lookupKV kvs "version" = some v → truthy v = true →
      parse_title (.obj kvs) = .ok (.str (pyStr t ++ " (" ++ pyStr v ++ ")"))) ∧
    (∀ s v, v ≠ "" → full_title (some s) (some v) = s ++ " (" ++ v ++ ")") ∧
    (∀ s, full_title (some s) none = s) := by
  refine ⟨?_, ?_, ?_, ?_, ?_⟩
  · intro hv
    simp [parse_title, pyIndex, pyGet, ht, hv, truthy, Bind.bind, Except.bind,
      pure, Except.pure]
  · intro v hv htr
    simp [parse_title, pyIndex, pyGet, ht, hv, htr, Bind.bind, Except.bind,
      pure, Except.pure]
  · intro v hv htr
    simp [parse_title, pyIndex, pyGet, ht, hv, htr, Bind.bind, Except.bind,
      pure, Except.pure]
  · intro s v hv
    simp [full_title, hv]
  · intro s
    simp [full_title]

/-- Claim C4 witness: the amended theorem applied to a concrete track object
with a truthy version. -/
theorem title_composition_witness :
    parse_title (.obj [("title", .str "X"), ("version", .str "Remix")]) =
      .ok (.str "X (Remix)") :=
  (title_composition [("title", .str "X"), ("version", .str "Remix")]
    (.str "X") rfl).2.2.1 (.str "Remix") rfl rfl

/-- Claim C5: for every available raw track JSON whose albums array is empty
and which parses successfully, the synthesized single-track album has id
equal to the track's id, title equal to the track's title, no release date
and no year. -/
theorem synthesized_album_fields (kvs : List (String × JVal)) (t : BasicTrackInfo)
    (halb : lookupKV kvs "albums" = some (.arr []))
    (h : (BasicTrackInfo_from_json (.obj kvs)).1 = some t) :
    t.album.id = .str t.id ∧ t.album.title = t.title ∧
      t.album.release_date = .raw .null ∧ t.album.year = none :=
  have hf := from_json_empty_albums_fields kvs t halb h
  ⟨hf.1, hf.2.1, hf.2.2.1, hf.2.2.2.1⟩

/-- Claim C5 witness: a concrete available track with an empty albums array,
fully evaluated, with the theorem applied to it. -/
theorem synthesized_album_witness :
    ∃ t, (BasicTrackInfo_from_json (.obj [("available", .bool true), ("id", .num 1),
        ("title", .str "X"), ("albums", .arr []), ("artists", .arr []),
        ("realId", .str "r")])).1 = some t ∧
      t.album.id = .str t.id ∧ t.album.title = t.title ∧
      t.album.release_date = .raw .null ∧ t.album.year = none :=
  ⟨⟨.str "X", "1", .str "r", ⟨.str "1", .str "X", .raw .null, none, [], .str "music"⟩,
      .num 1, .num 1, [], .bool false, ⟨none⟩⟩, rfl,
    synthesized_album_fields
      [("available", .bool true), ("id", .num 1), ("title", .str "X"),
        ("albums", .arr []), ("artists", .arr []), ("realId", .str "r")]
      ⟨.str "X", "1", .str "r", ⟨.str "1", .str "X", .raw .null, none, [], .str "music"⟩,
        .num 1, .num 1, [], .bool false, ⟨none⟩⟩ rfl rfl⟩

/-- Claim C6: the legacy-protocol candidate selector (modelled from the
spec, see `selectLegacyCandidate`) picks aac@256 for best quality and
aac@160 for lowest quality from the candidates
[(mp3,128),(aac,256),(aac,160)], with effective bitrates 384, 80 and 128. -/
theorem legacy_selector_example :
    selectLegacyCandidate .best [("mp3", 128), ("aac", 256), ("aac", 160)] =
      some ("aac", 256) ∧
    selectLegacyCandidate .lowest [("mp3", 128), ("aac", 256), ("aac", 160)] =
      some ("aac", 160) ∧
    effectiveBitrate "aac" 256 = 384 ∧ effectiveBitrate "aac" 160 = 80 ∧
    effectiveBitrate "mp3" 128 = 128 := by
  have h1 : effectiveBitrate "mp3" 128 = 128 := by simp [effectiveBitrate]
  have h2 : effectiveBitrate "aac" 256 = 384 := by
    simp [effectiveBitrate]
    norm_num
  have h3 : effectiveBitrate "aac" 160 = 80 := by
    simp [effectiveBitrate]
    norm_num
  refine ⟨?_, ?_, h2, h3, h1⟩ <;>
    simp [selectLegacyCandidate, stableSort, insSorted, h1, h2, h3] <;> norm_num

/-- Claim C7: decrypting the AES-CTR encryption of any plaintext under the
same hex-encoded 16-byte key and the fixed 12-zero-byte nonce yields the
original plaintext. -/
theorem decrypt_encrypt_roundtrip (data : List Nat) (key : String) (kb : List Nat)
    (hk : hexDecode key = some kb) (hlen : kb.length = 16) :
    (do
      let c ← encrypt_data data key
      decrypt_data c key) = .ok data := by
  simp [encrypt_data, decrypt_data, hk, hlen, ctrCrypt_ctrCrypt, Bind.bind, Except.bind]

/-- Claim C7 witness: the round trip at a concrete 16-byte key and a concrete
plaintext. -/
theorem decrypt_encrypt_roundtrip_witness :
    hexDecode "000102030405060708090a0b0c0d0e0f" =
      some [0, 1, 2, 3, 4, 5, 6, 7, 8, 9, 10, 11, 12, 13, 14, 15] ∧
    (do
      let c ← encrypt_data [1, 2, 3] "000102030405060708090a0b0c0d0e0f"
      decrypt_data c "000102030405060708090a0b0c0d0e0f") = .ok [1, 2, 3] :=
  ⟨by decide,
    decrypt_encrypt_roundtrip [1, 2, 3] "000102030405060708090a0b0c0d0e0f"
      [0, 1, 2, 3, 4, 5, 6, 7, 8, 9, 10, 11, 12, 13, 14, 15] (by decide) (by decide)⟩

/-- Claim C8: for every raw artists list whose entries are artist objects
(with decomposed sub-lists that are absent, falsy or lists), the flattened
artist list contains, for each artist entry in input order, that entry
followed by every element of its decomposed sub-list that is itself an
artist object; order is preserved, duplicates are kept, and `parse_artists`
converts exactly that flattened list. -/
theorem parse_artists_flattening (entries : List JVal)
    (h : ∀ a ∈ entries, ∃ akvs, a = .obj akvs ∧
      (∀ v, lookupKV akvs "decomposed" = some v → truthy v = false ∨ ∃ ds, v = .arr ds)) :
    collectArtistEntries entries =
      .ok (entries.flatMap (fun a => a :: (specDecomposed a).filter isObjB)) ∧
    parse_artists (.arr entries) =
      (entries.flatMap (fun a => a :: (specDecomposed a).filter isObjB)).mapM
        BasicArtistInfo_from_json := by
  have main := collect_spec entries h
  refine ⟨main, ?_⟩
  simp [parse_artists, iterElems, main, Bind.bind, Except.bind]

/-- Claim C8 witness: a concrete artists list with a composite (decomposed)
entry that duplicates a top-level artist — the duplicate is kept and order
is preserved. -/
theorem parse_artists_flattening_witness :
    parse_artists (.arr
      [.obj [("id", .num 1), ("name", .str "a"),
        ("decomposed", .arr [.str "feat", .obj [("id", .num 2), ("name", .str "b")]])],
       .obj [("id", .num 2), ("name", .str "b")]]) =
      .ok [⟨.num 1, .str "a"⟩, ⟨.num 2, .str "b"⟩, ⟨.num 2, .str "b"⟩] := by
  have h := (parse_artists_flattening
    [.obj [("id", .num 1), ("name", .str "a"),
      ("decomposed", .arr [.str "feat", .obj [("id", .num 2), ("name", .str "b")]])],
     .obj [("id", .num 2), ("name", .str "b")]]
    (by
      intro a ha
      simp only [List.mem_cons, List.not_mem_nil, or_false] at ha
      rcases ha with rfl | rfl
      · refine ⟨_, rfl, ?_⟩
        intro v hv
        simp only [lookupKV] at hv
        right
        exact ⟨_, (Option.some.inj hv).symm⟩
      · refine ⟨_, rfl, ?_⟩
        intro v hv
        simp [lookupKV] at hv)).2
  exact h.trans rfl

/-- Claim C9: `write_via_temporary_file` writes the data to the derived
temporary file in the target's directory and renames it onto the target only
after the write and the optional hook have completed (on success the target
holds the post-hook content); if the write or the hook raises, the
pre-existing state of the target path is unchanged.  The hypothesis rules
out the degenerate sha256 fixed point where the temporary name would equal
the target name. -/
theorem write_via_temporary_file_atomic (fs : FS) (data : List Nat) (target : PyPath)
    (writeResult : Except (PyExc × List Nat) Unit)
    (hook : Option (List Nat → Except (PyExc × List Nat) (List Nat)))
    (hname : TEMPORARY_FILE_NAME target.name ≠ target.name) :
    (∀ e fs', write_via_temporary_file fs data target writeResult hook = (some e, fs') →
        fs' target = fs target) ∧
    (hook = none →
      ∀ fs', write_via_temporary_file fs data target writeResult hook = (none, fs') →
        fs' target = some data) ∧
    (∀ h, hook = some h →
      ∀ fs', write_via_temporary_file fs data target writeResult hook = (none, fs') →
        ∃ c, h data = .ok c ∧ fs' target = some c) := by
  have htarget : target ≠ (⟨target.parent, TEMPORARY_FILE_NAME target.name⟩ : PyPath) := by
    intro h
    exact hname (congrArg PyPath.name h.symm)
  refine ⟨?_, ?_, ?_⟩
  · intro e fs' hw
    rcases writeResult with ⟨ep, leftover⟩ | u
    · by_cases he : ep = PyExc.interruptedError <;>
        · simp [write_via_temporary_file, he] at hw
          obtain ⟨he2, hfs⟩ := hw
          subst hfs
          simp [fsUpdate, htarget]
    · rcases hook with _ | h
      · simp [write_via_temporary_file] at hw
      · rcases hh : h data with ⟨ep, leftover⟩ | c
        · by_cases he : ep = PyExc.interruptedError <;>
            · simp [write_via_temporary_file, hh, he] at hw
              obtain ⟨he2, hfs⟩ := hw
              subst hfs
              simp [fsUpdate, htarget]
        · simp [write_via_temporary_file, hh] at hw
  · rintro rfl fs' hw
    rcases writeResult with ⟨ep, leftover⟩ | u
    · by_cases he : ep = PyExc.interruptedError <;> simp [write_via_temporary_file, he] at hw
    · simp [write_via_temporary_file] at hw
      subst hw
      simp [fsRename, fsUpdate, htarget]
  · rintro h rfl fs' hw
    rcases writeResult with ⟨ep, leftover⟩ | u
    · by_cases he : ep = PyExc.interruptedError <;> simp [write_via_temporary_file, he] at hw
    · rcases hh : h data with ⟨ep, leftover⟩ | c
      · by_cases he : ep = PyExc.interruptedError <;>
          simp [write_via_temporary_file, hh, he] at hw
      · simp [write_via_temporary_file, hh] at hw
        subst hw
        exact ⟨c, rfl, by simp [fsRename, fsUpdate, htarget]⟩

/-- Claim C9 witness: a successful hookless write onto a concrete target in
an empty filesystem leaves the data at the target. -/
theorem write_via_temporary_file_witness :
    ((write_via_temporary_file (fun _ => none) [7] ⟨"music", "song.mp3"⟩
        (.ok ()) none).2) ⟨"music", "song.mp3"⟩ = some [7] := by
  have hname : TEMPORARY_FILE_NAME "song.mp3" ≠ "song.mp3" := by
    intro he
    have hl := TEMPORARY_FILE_NAME_length "song.mp3"
    rw [he] at hl
    exact absurd hl (by decide)
  exact (write_via_temporary_file_atomic (fun _ => none) [7] ⟨"music", "song.mp3"⟩
    (.ok ()) none hname).2.1 rfl _ rfl

/-- Claim C10: for every available raw track JSON whose albums array is
empty, or whose first album entry is an object lacking a trackPosition
field, a successful parse yields numberInAlbum 1 and discNumber 1. -/
theorem default_track_position (kvs : List (String × JVal)) (t : BasicTrackInfo) :
    (lookupKV kvs "albums" = some (.arr []) →
      (BasicTrackInfo_from_json (.obj kvs)).1 = some t →
      t.number = .num 1 ∧ t.disc_number = .num 1) ∧
    (∀ akvs rest, lookupKV kvs "albums" = some (.arr (.obj akvs :: rest)) →
      lookupKV akvs "trackPosition" = none →
      (BasicTrackInfo_from_json (.obj kvs)).1 = some t →
      t.number = .num 1 ∧ t.disc_number = .num 1) := by
  constructor
  · intro halb h
    have hf := from_json_empty_albums_fields kvs t halb h
    exact ⟨hf.2.2.2.2.2.1, hf.2.2.2.2.2.2⟩
  · intro akvs rest halb htp h
    exact from_json_no_trackPosition_fields kvs akvs rest t halb htp h

/-- Claim C10 witness: a concrete available track whose single album entry
has no trackPosition, fully evaluated, with the theorem applied to it. -/
theorem default_track_position_witness :
    ∃ t, (BasicTrackInfo_from_json (.obj [("available", .bool true), ("id", .num 1),
        ("title", .str "X"),
        ("albums", .arr [.obj [("id", .num 10), ("title", .str "A"),
          ("metaType", .str "music"), ("artists", .arr [])]]),
        ("artists", .arr []), ("realId", .str "r")])).1 = some t ∧
      t.number = .num 1 ∧ t.disc_number = .num 1 :=
  ⟨⟨.str "X", "1", .str "r",
      ⟨.num 10, .str "A", .raw .null, none, [], .str "music"⟩,
      .num 1, .num 1, [], .bool false, ⟨none⟩⟩, rfl,
    (default_track_position
      [("available", .bool true), ("id", .num 1), ("title", .str "X"),
        ("albums", .arr [.obj [("id", .num 10), ("title", .str "A"),
          ("metaType", .str "music"), ("artists", .arr [])]]),
        ("artists", .arr []), ("realId", .str "r")]
      ⟨.str "X", "1", .str "r",
        ⟨.num 10, .str "A", .raw .null, none, [], .str "music"⟩,
        .num 1, .num 1, [], .bool false, ⟨none⟩⟩).2
      [("id", .num 10), ("title", .str "A"), ("metaType", .str "music"),
        ("artists", .arr [])] [] rfl rfl rfl⟩

end YMD
